import Mathlib

/-!
Shallow embedding of the core logic of the `spacemath` game:

* `src/src/math/MathGenerator.ts` — problem generation and distractor
  ("wrong answer") synthesis;
* `src/src/models/Evolution.ts` — evolution-stage lookup functions;
* the `GameScene` session state machine (the 5-lives variant, which also
  publishes lives updates) together with the Alpine-layer
  `submitAnswer` input handler.

Randomness in the TypeScript source (`Math.random`-derived draws) is
modelled by explicit oracle parameters: every random draw becomes an
argument, and theorems quantify over all possible draws.
JavaScript numbers are modelled as `Int` (all quantities involved are
integer-valued in the source); the one genuinely fractional value,
`getEvolutionProgress`, is modelled over `Rat`.
-/

namespace SpaceMath

/-! ## Math types (`src/src/math/types.ts`) -/

inductive MathOperation where
  | addition
  | subtraction
  | multiplication
  | division
deriving DecidableEq, Repr

structure MathProblem where
  operand1 : Int
  operand2 : Int
  operation : MathOperation
  answer : Int
  equation : String
deriving DecidableEq, Repr

structure DifficultyConfig where
  level : Int
  operations : List MathOperation
  maxNumber : Int
  maxMultiplier : Int
deriving DecidableEq, Repr

/-! ## Difficulty ladder (`MathGenerator.ts`, `DIFFICULTY_CONFIGS`) -/

open MathOperation in
def DIFFICULTY_CONFIGS : List DifficultyConfig :=
  [ { level := 1, operations := [addition], maxNumber := 10, maxMultiplier := 5 },
    { level := 2, operations := [addition, subtraction], maxNumber := 15, maxMultiplier := 5 },
    { level := 3, operations := [addition, subtraction, multiplication], maxNumber := 20,
      maxMultiplier := 5 },
    { level := 4, operations := [addition, subtraction, multiplication, division],
      maxNumber := 50, maxMultiplier := 10 },
    { level := 5, operations := [addition, subtraction, multiplication, division],
      maxNumber := 100, maxMultiplier := 12 } ]

/-- The constructor / `setDifficulty` clamp: `Math.min(5, Math.max(1, level))`. -/
def clampLevel (level : Int) : Int :=
  min 5 (max 1 level)

/-- `DIFFICULTY_CONFIGS[clamped - 1]`, the config selected by the constructor. -/
def getConfig (level : Int) : DifficultyConfig :=
  DIFFICULTY_CONFIGS.getD (clampLevel level - 1).toNat
    { level := 1, operations := [MathOperation.addition], maxNumber := 10, maxMultiplier := 5 }

/-! ## Problem generation (`MathGenerator.generate*`)

Each `generateX` takes the two values returned by `randomInt` as explicit
oracle arguments `r1 r2`; the source draws them uniformly from
`[1, maxNumber]` (addition, subtraction) or `[1, maxMultiplier]`
(multiplication, and divisor/quotient for division). -/

def generateAddition (cfg : DifficultyConfig) (r1 r2 : Int) : MathProblem :=
  { operand1 := r1
    operand2 := r2
    operation := MathOperation.addition
    answer := r1 + r2
    equation := toString r1 ++ " + " ++ toString r2 ++ " = ?" }

/-- Subtraction swaps the draws when `operand2 > operand1` so the result is
non-negative, exactly as in the source. -/
def generateSubtraction (cfg : DifficultyConfig) (r1 r2 : Int) : MathProblem :=
  let operand1 := if r2 > r1 then r2 else r1
  let operand2 := if r2 > r1 then r1 else r2
  { operand1 := operand1
    operand2 := operand2
    operation := MathOperation.subtraction
    answer := operand1 - operand2
    equation := toString operand1 ++ " - " ++ toString operand2 ++ " = ?" }

def generateMultiplication (cfg : DifficultyConfig) (r1 r2 : Int) : MathProblem :=
  { operand1 := r1
    operand2 := r2
    operation := MathOperation.multiplication
    answer := r1 * r2
    equation := toString r1 ++ " × " ++ toString r2 ++ " = ?" }

/-- Division: `r1` is the divisor draw, `r2` the quotient draw; the dividend
is their product, so the division is exact by construction. -/
def generateDivision (cfg : DifficultyConfig) (r1 r2 : Int) : MathProblem :=
  let dividend := r1 * r2
  { operand1 := dividend
    operand2 := r1
    operation := MathOperation.division
    answer := r2
    equation := toString dividend ++ " ÷ " ++ toString r1 ++ " = ?" }

/-- The `switch (operation)` dispatch of `MathGenerator.generate`. -/
def generateWith (cfg : DifficultyConfig) (op : MathOperation) (r1 r2 : Int) : MathProblem :=
  match op with
  | MathOperation.addition => generateAddition cfg r1 r2
  | MathOperation.subtraction => generateSubtraction cfg r1 r2
  | MathOperation.multiplication => generateMultiplication cfg r1 r2
  | MathOperation.division => generateDivision cfg r1 r2

/-- The range `randomInt` is called with for a given operation: `maxNumber`
for addition and subtraction, `maxMultiplier` for multiplication and for
the divisor/quotient draws of division. -/
def drawBound (cfg : DifficultyConfig) (op : MathOperation) : Int :=
  match op with
  | MathOperation.addition => cfg.maxNumber
  | MathOperation.subtraction => cfg.maxNumber
  | MathOperation.multiplication => cfg.maxMultiplier
  | MathOperation.division => cfg.maxMultiplier

/-! ## Distractor synthesis (`MathGenerator.generateWrongAnswers`)

The JS `Set` is modelled as a duplicate-free `List Int` in insertion
order.  `insertWrong` is the shared acceptance rule: add the candidate
iff it is strictly positive, differs from the correct answer, and is not
already present. -/

def insertWrong (correctAnswer : Int) (s : List Int) (w : Int) : List Int :=
  if 0 < w ∧ w ≠ correctAnswer ∧ w ∉ s then s ++ [w] else s

lemma insertWrong_length_lb (c : Int) (s : List Int) (w : Int) :
    s.length ≤ (insertWrong c s w).length := by
  unfold insertWrong
  split <;> simp

lemma insertWrong_length_ub (c : Int) (s : List Int) (w : Int) :
    (insertWrong c s w).length ≤ s.length + 1 := by
  unfold insertWrong
  split <;> simp

lemma insertWrong_filter_eq (c : Int) (s : List Int) (w : Int) (p : Int → Bool)
    (hpw : p w = false) : (insertWrong c s w).filter p = s.filter p := by
  unfold insertWrong
  split
  · simp [List.filter_append, hpw]
  · rfl

lemma insertWrong_eq_of_mem (c : Int) (s : List Int) (w : Int) (hw : w ∈ s) :
    insertWrong c s w = s := by
  unfold insertWrong
  split
  · next h => exact absurd hw h.2.2
  · rfl

lemma insertWrong_eq_of_nonpos (c : Int) (s : List Int) (w : Int) (hw : ¬ 0 < w) :
    insertWrong c s w = s := by
  unfold insertWrong
  split
  · next h => exact absurd h.1 hw
  · rfl

lemma filter_length_lt_of_mem (s : List Int) (p q : Int → Bool)
    (himp : ∀ x, p x = true → q x = true) (w : Int) (hw : w ∈ s)
    (hpw : p w = false) (hqw : q w = true) :
    (s.filter p).length < (s.filter q).length := by
  rw [← List.countP_eq_length_filter, ← List.countP_eq_length_filter]
  induction s with
  | nil => cases hw
  | cons a t ih =>
    rw [List.countP_cons, List.countP_cons]
    have hmono : t.countP p ≤ t.countP q :=
      List.countP_mono_left (fun x _ hx => himp x hx)
    rcases List.mem_cons.mp hw with rfl | hwt
    · rw [hpw, hqw]
      simp only [Bool.false_eq_true, if_false, if_true]
      omega
    · have hstrict := ih hwt
      by_cases hpa : p a = true
      · rw [hpa, himp a hpa]
        omega
      · rw [if_neg hpa]
        by_cases hqa : q a = true
        · rw [hqa]; simp only [if_true]; omega
        · rw [if_neg hqa]; omega

lemma filter_length_mono_thr (s : List Int) (a b : Int) (hab : a ≤ b) :
    (s.filter (fun x => decide (b ≤ x))).length ≤ (s.filter (fun x => decide (a ≤ x))).length := by
  rw [← List.countP_eq_length_filter, ← List.countP_eq_length_filter]
  exact List.countP_mono_left (fun x _ hx => by
    simp only [decide_eq_true_eq] at hx ⊢
    omega)

/-- Termination measure for the deterministic fallback loop at threshold
`t` (the next positive candidate `correctAnswer + fallbackOffset`): twice
the gap still to fill, plus the number of set elements at or above `t`
(each can block at most one future positive proposal), plus the distance
until positive candidates become strictly positive. -/
def fallbackMeasure (c : Int) (count : Nat) (t : Int) (s : List Int) : Nat :=
  2 * (count - s.length) + (s.filter (fun x => decide (t ≤ x))).length + (1 - t).toNat

lemma fallbackMeasure_decreasing (c t : Int) (count : Nat) (s : List Int)
    (ht : c < t)
    (h : s.length < count)
    (h1 : (insertWrong c s t).length < count) :
    fallbackMeasure c count (t + 1) (insertWrong c (insertWrong c s t) (2 * c - t)) <
      fallbackMeasure c count t s := by
  set s1 := insertWrong c s t with hs1
  set s2 := insertWrong c s1 (2 * c - t) with hs2
  -- the low candidate never satisfies the next threshold
  have hlow : (fun x => decide (t + 1 ≤ x)) (2 * c - t) = false := by
    simp only [decide_eq_false_iff_not]
    omega
  -- the high candidate never satisfies the next threshold
  have hhigh : (fun x => decide (t + 1 ≤ x)) t = false := by
    simp only [decide_eq_false_iff_not]
    omega
  have hfil2 : s2.filter (fun x => decide (t + 1 ≤ x)) =
      s1.filter (fun x => decide (t + 1 ≤ x)) :=
    insertWrong_filter_eq c s1 (2 * c - t) _ hlow
  have hfil1 : s1.filter (fun x => decide (t + 1 ≤ x)) =
      s.filter (fun x => decide (t + 1 ≤ x)) :=
    insertWrong_filter_eq c s t _ hhigh
  have hlen01 : s.length ≤ s1.length := insertWrong_length_lb c s t
  have hlen12 : s1.length ≤ s2.length := insertWrong_length_lb c s1 (2 * c - t)
  have hlen2ub : s2.length ≤ s1.length + 1 := insertWrong_length_ub c s1 (2 * c - t)
  have hmono : (s.filter (fun x => decide (t + 1 ≤ x))).length ≤
      (s.filter (fun x => decide (t ≤ x))).length :=
    filter_length_mono_thr s t (t + 1) (by omega)
  unfold fallbackMeasure
  rw [hfil2, hfil1]
  by_cases hpos : 0 < t
  · have htn0 : (1 - t).toNat = 0 := by omega
    have htn1 : (1 - (t + 1)).toNat = 0 := by omega
    by_cases hmem : t ∈ s
    · -- positive candidate blocked by an existing element: the blocker count drops
      have hs1eq : s1 = s := insertWrong_eq_of_mem c s t hmem
      have hstrict : (s.filter (fun x => decide (t + 1 ≤ x))).length <
          (s.filter (fun x => decide (t ≤ x))).length :=
        filter_length_lt_of_mem s _ _
          (fun x hx => by
            simp only [decide_eq_true_eq] at hx ⊢
            omega)
          t hmem hhigh (by simp)
      rw [hs1eq] at hlen12
      omega
    · -- positive fresh candidate: it is accepted and the gap shrinks
      have hne : t ≠ c := by omega
      have hs1eq : s1 = s ++ [t] := by
        rw [hs1]
        unfold insertWrong
        rw [if_pos ⟨hpos, hne, hmem⟩]
      have hlen1 : s1.length = s.length + 1 := by rw [hs1eq]; simp
      omega
  · -- candidate not yet positive: both proposals rejected, the deficit shrinks
    have hs1eq : s1 = s := insertWrong_eq_of_nonpos c s t hpos
    have hs2eq : s2 = s1 := insertWrong_eq_of_nonpos c s1 (2 * c - t) (by omega)
    rw [hs2eq, hs1eq]
    have htn : (1 - (t + 1)).toNat + 1 ≤ (1 - t).toNat := by omega
    omega

/-- Phase 1, the randomized phase: up to `100` attempts (`maxAttempts`),
stopping early once `count` values are collected.  The random draw of
attempt `n` is `rng n = (offset, sign)`: the source computes
`offset = randomInt(1, max(5, ⌊0.3·correctAnswer⌋+1))` and a random sign;
here the draw is an oracle argument, so every theorem below holds for
every possible sequence of draws. -/
def randomPhase (correctAnswer : Int) (count : Nat) (rng : Nat → Int × Bool)
    (attempts : Nat) (s : List Int) : List Int :=
  if s.length < count ∧ attempts < 100 then
    let draw := rng attempts
    let proposal := if draw.2 then correctAnswer + draw.1 else correctAnswer - draw.1
    randomPhase correctAnswer count rng (attempts + 1) (insertWrong correctAnswer s proposal)
  else s
termination_by 100 - attempts
decreasing_by omega

/-- Delta sequence of the deterministic fallback: offsets `+1, −1, +2, −2, …`.
One call of `fallbackLoop` at `k` performs the two source iterations with
`fallbackOffset = k+1` and `fallbackOffset = −(k+1)`, checking
`wrongAnswers.size < count` before each, exactly as the source's
`while` loop does. -/
def fallbackLoop (correctAnswer : Int) (count : Nat) (k : Nat) (s : List Int) : List Int :=
  if h : s.length < count then
    let s1 := insertWrong correctAnswer s (correctAnswer + (k + 1 : Int))
    if h1 : s1.length < count then
      fallbackLoop correctAnswer count (k + 1) (insertWrong correctAnswer s1 (correctAnswer - (k + 1 : Int)))
    else s1
  else s
termination_by fallbackMeasure correctAnswer count (correctAnswer + (k + 1 : Int)) s
decreasing_by
  have e1 : correctAnswer + ((k + 1 : Nat) + 1 : Int) = correctAnswer + (k + 1 : Int) + 1 := by
    push_cast
    ring
  have e2 : correctAnswer - (k + 1 : Int) = 2 * correctAnswer - (correctAnswer + (k + 1 : Int)) := by
    ring
  rw [e1, e2]
  exact fallbackMeasure_decreasing correctAnswer (correctAnswer + (k + 1 : Int)) count s
    (by omega) h h1

/-- `MathGenerator.generateWrongAnswers(correctAnswer, count)`: the
randomized phase followed by the deterministic fallback. -/
def generateWrongAnswers (correctAnswer : Int) (count : Nat) (rng : Nat → Int × Bool) : List Int :=
  fallbackLoop correctAnswer count 0 (randomPhase correctAnswer count rng 0 [])

/-- Invariant of the wrong-answer set: duplicate-free, strictly positive,
never the correct answer. -/
def WrongInv (c : Int) (s : List Int) : Prop :=
  s.Nodup ∧ ∀ w ∈ s, 0 < w ∧ w ≠ c

lemma insertWrong_inv (c : Int) (s : List Int) (w : Int) (h : WrongInv c s) :
    WrongInv c (insertWrong c s w) := by
  unfold insertWrong
  split
  · next hc =>
    refine ⟨?_, ?_⟩
    · rw [List.nodup_append]
      refine ⟨h.1, List.nodup_singleton w, ?_⟩
      intro x hx hx1
      simp only [List.mem_singleton] at hx1
      exact hc.2.2 (hx1 ▸ hx)
    · intro x hx
      rcases List.mem_append.mp hx with hx | hx
      · exact h.2 x hx
      · simp only [List.mem_singleton] at hx
        exact hx ▸ ⟨hc.1, hc.2.1⟩
  · exact h

lemma fallbackLoop_inv (c : Int) (count k : Nat) (s : List Int) (h : WrongInv c s) :
    WrongInv c (fallbackLoop c count k s) := by
  induction k, s using fallbackLoop.induct c count with
  | case1 k s hlt s1 hlt1 ih =>
    rw [fallbackLoop]
    simp only [dif_pos hlt, dif_pos hlt1]
    exact ih (insertWrong_inv c _ _ (insertWrong_inv c _ _ h))
  | case2 k s hlt s1 hge =>
    rw [fallbackLoop]
    simp only [dif_pos hlt, dif_neg hge]
    exact insertWrong_inv c _ _ h
  | case3 k s hge =>
    rw [fallbackLoop]
    simp only [dif_neg hge]
    exact h

/-- The fallback loop can only exit once the set holds exactly `count`
values; together with the termination argument baked into its definition
this is the totality guarantee of the deterministic fallback phase. -/
lemma fallbackLoop_length (c : Int) (count k : Nat) (s : List Int)
    (hle : s.length ≤ count) : (fallbackLoop c count k s).length = count := by
  induction k, s using fallbackLoop.induct c count with
  | case1 k s hlt s1 hlt1 ih =>
    rw [fallbackLoop]
    simp only [dif_pos hlt, dif_pos hlt1]
    refine ih ?_
    calc (insertWrong c s1 (c - (k + 1 : Int))).length
        ≤ s1.length + 1 := insertWrong_length_ub c s1 _
      _ ≤ count := by omega
  | case2 k s hlt s1 hge =>
    rw [fallbackLoop]
    simp only [dif_pos hlt, dif_neg hge]
    have := insertWrong_length_ub c s (c + (k + 1 : Int))
    have hs1 : s1 = insertWrong c s (c + (k + 1 : Int)) := rfl
    show s1.length = count
    rw [hs1] at hge ⊢
    omega
  | case3 k s hge =>
    rw [fallbackLoop]
    simp only [dif_neg hge]
    omega

lemma randomPhase_inv (c : Int) (count : Nat) (rng : Nat → Int × Bool)
    (attempts : Nat) (s : List Int) (h : WrongInv c s) :
    WrongInv c (randomPhase c count rng attempts s) := by
  induction attempts, s using randomPhase.induct c count rng with
  | case1 attempts s hcond draw proposal ih =>
    rw [randomPhase]
    simp only [if_pos hcond]
    exact ih (insertWrong_inv c _ _ h)
  | case2 attempts s hcond =>
    rw [randomPhase]
    simp only [if_neg hcond]
    exact h

lemma randomPhase_length (c : Int) (count : Nat) (rng : Nat → Int × Bool)
    (attempts : Nat) (s : List Int) (h : s.length ≤ count) :
    (randomPhase c count rng attempts s).length ≤ count := by
  induction attempts, s using randomPhase.induct c count rng with
  | case1 attempts s hcond draw proposal ih =>
    rw [randomPhase]
    simp only [if_pos hcond]
    refine ih ?_
    have := insertWrong_length_ub c s proposal
    omega
  | case2 attempts s hcond =>
    rw [randomPhase]
    simp only [if_neg hcond]
    exact h

/-! ## Evolution ladder (`src/src/models/Evolution.ts`) -/

structure EvolutionStage where
  id : Nat
  name : String
  emoji : String
  xpRequired : Int
deriving DecidableEq, Repr

def EVOLUTION_STAGES : List EvolutionStage :=
  [ { id := 1, name := "Starter Shuttle", emoji := "🛸", xpRequired := 0 },
    { id := 2, name := "Scout Rocket", emoji := "🚀", xpRequired := 500 },
    { id := 3, name := "Orbital Skimmer", emoji := "🛰️", xpRequired := 1500 },
    { id := 4, name := "Ion Spear", emoji := "☄️", xpRequired := 3500 },
    { id := 5, name := "Nova Striker", emoji := "✨", xpRequired := 7000 },
    { id := 6, name := "Starforged Cruiser", emoji := "🌌", xpRequired := 12000 },
    { id := 7, name := "Celestial Apex", emoji := "⭐", xpRequired := 20000 } ]

/-- The `for … in EVOLUTION_STAGES` loop of `getEvolutionStage`: keep the
stage id while `xp >= xpRequired`, break at the first stage whose
threshold exceeds `xp`. -/
def stageLoop (xp : Int) : List EvolutionStage → Nat → Nat
  | [], stage => stage
  | e :: rest, stage => if e.xpRequired ≤ xp then stageLoop xp rest e.id else stage

def getEvolutionStage (xp : Int) : Nat :=
  stageLoop xp EVOLUTION_STAGES 1

/-- `EVOLUTION_STAGES.find(e => e.id === stage) || EVOLUTION_STAGES[0]`. -/
def getEvolutionByStage (stage : Nat) : EvolutionStage :=
  (EVOLUTION_STAGES.find? (fun e => e.id = stage)).getD
    { id := 1, name := "Starter Shuttle", emoji := "A", xpRequired := 0 }

def getNextEvolution (currentStage : Nat) : Option EvolutionStage :=
  EVOLUTION_STAGES.find? (fun e => e.id = currentStage + 1)

def getXPToNextEvolution (currentXP : Int) (currentStage : Nat) : Int :=
  match getNextEvolution currentStage with
  | none => 0
  | some next => max 0 (next.xpRequired - currentXP)

/-- `getEvolutionProgress`; the JS floating-point division is modelled
exactly over `Rat` (its arguments are integers, the quotient is the one
fractional value of the module). -/
def getEvolutionProgress (currentXP : Int) (currentStage : Nat) : Rat :=
  let current := getEvolutionByStage currentStage
  match getNextEvolution currentStage with
  | none => 100
  | some next =>
      let xpInCurrentStage : Rat := (currentXP : Rat) - (current.xpRequired : Rat)
      let xpNeededForNext : Rat := (next.xpRequired : Rat) - (current.xpRequired : Rat)
      min 100 (xpInCurrentStage / xpNeededForNext * 100)

/-! ## Game session state machine (`GameScene`, 5-lives variant)

The embedding covers the scoring/streak/lives/XP logic of the scene:
`init`, `handleCorrectAnswer`, `handleWrongAnswer`, `gameOver`,
`checkTypedAnswer`, `generateNewProblem`'s state update, the pause /
resume / quit event handlers, and the missed-enemy branch of `update`.
Rendering, audio and physics calls mutate no session state and are
dropped.  Wall-clock readings (`Date.now()`) are oracle arguments. -/

inductive GameMode where
  | shoot
  | type
deriving DecidableEq, Repr

/-- Session-relevant fields of `GameScene`. -/
structure GameState where
  gameMode : GameMode
  difficulty : Int
  evolutionStage : Int
  score : Int
  streak : Int
  bestStreak : Int
  correctAnswers : Int
  xpEarned : Int
  problemStartTime : Int
  isGameOver : Bool
  isPaused : Bool
  playerLives : Int
  currentProblem : Option MathProblem
deriving DecidableEq, Repr

/-- Events the scene publishes on the event bus (`EventBus.emit`). -/
inductive GameEvent where
  | problemNew (equation : String) (answer : Int)
  | answerCorrect (xp : Int) (streak : Int)
  | answerWrong
  | scoreUpdate (score : Int) (streak : Int)
  | playerLivesUpdate (lives : Int)
  | gameOverSummary (score : Int) (correct : Int) (xpEarned : Int) (bestStreak : Int)
deriving DecidableEq, Repr

/-- `GameScene.init` followed by its `emitLivesUpdate()`. -/
def initSession (mode : GameMode) (difficulty evolutionStage : Int) :
    GameState × List GameEvent :=
  ({ gameMode := mode
     difficulty := difficulty
     evolutionStage := evolutionStage
     score := 0
     streak := 0
     bestStreak := 0
     correctAnswers := 0
     xpEarned := 0
     problemStartTime := 0
     isGameOver := false
     isPaused := false
     playerLives := 5
     currentProblem := none },
   [GameEvent.playerLivesUpdate 5])

/-- The streak bonus of `handleCorrectAnswer`: `Math.min(20, streak * 2)`. -/
def streakBonus (streak : Int) : Int :=
  min 20 (streak * 2)

/-- `GameScene.handleCorrectAnswer`, with the current wall clock `now`
passed in for the `Date.now()` read.  Note the source increments
`this.streak` before computing the streak bonus. -/
def handleCorrectAnswer (now : Int) (s : GameState) : GameState × List GameEvent :=
  let streak := s.streak + 1
  let bestStreak := if streak > s.bestStreak then streak else s.bestStreak
  let timeBonus : Int := if now - s.problemStartTime < 3000 then 5 else 0
  let bonus := streakBonus streak
  let xp := 10 + timeBonus + bonus
  ({ s with
      correctAnswers := s.correctAnswers + 1
      streak := streak
      bestStreak := bestStreak
      xpEarned := s.xpEarned + xp
      score := s.score + (100 + bonus * 5) },
   [GameEvent.answerCorrect xp streak,
    GameEvent.scoreUpdate (s.score + (100 + bonus * 5)) streak])

/-- `GameScene.handleWrongAnswer`, including the `gameOver()` call when
lives are exhausted. -/
def handleWrongAnswer (s : GameState) : GameState × List GameEvent :=
  let lives := s.playerLives - 1
  let s1 := { s with streak := 0, playerLives := lives }
  let base := [GameEvent.playerLivesUpdate lives,
               GameEvent.answerWrong,
               GameEvent.scoreUpdate s.score 0]
  if lives ≤ 0 then
    ({ s1 with isGameOver := true },
     base ++ [GameEvent.gameOverSummary s.score s.correctAnswers s.xpEarned s.bestStreak])
  else
    (s1, base)

/-- `GameScene.checkTypedAnswer` (type mode): compare the submitted number
with the current problem's answer. -/
def checkTypedAnswer (now : Int) (answer : Int) (s : GameState) : GameState × List GameEvent :=
  match s.currentProblem with
  | none => (s, [])
  | some p =>
      if answer = p.answer then handleCorrectAnswer now s
      else handleWrongAnswer s

/-- The state update of `GameScene.generateNewProblem`: no-op once the
game is over, otherwise install the freshly generated problem and record
its issue timestamp, publishing `problem:new`. -/
def generateNewProblem (p : MathProblem) (now : Int) (s : GameState) :
    GameState × List GameEvent :=
  if s.isGameOver then (s, [])
  else
    ({ s with currentProblem := some p, problemStartTime := now },
     [GameEvent.problemNew p.equation p.answer])

/-- The `game:pause` handler: sets the pause flag (scene/audio calls do
not touch session state). -/
def pauseSession (s : GameState) : GameState :=
  { s with isPaused := true }

/-- The `game:resume` handler. -/
def resumeSession (s : GameState) : GameState :=
  { s with isPaused := false }

/-- An enemy target, as far as answer resolution is concerned. -/
structure EnemyData where
  answerValue : Int
  isCorrect : Bool
deriving DecidableEq, Repr

/-- The missed-target branch of `GameScene.update`: when an enemy leaves
the play bounds, a life is lost iff it carried the correct answer or the
session is in type mode. -/
def resolveMissedEnemy (e : EnemyData) (s : GameState) : GameState × List GameEvent :=
  if e.isCorrect ∨ s.gameMode = GameMode.type then handleWrongAnswer s
  else (s, [])

/-- The bullet-hit resolution of `checkBulletEnemyCollision` (shoot mode):
hitting the enemy holding the correct answer scores, any other hit is
wrong. -/
def resolveShotEnemy (now : Int) (e : EnemyData) (s : GameState) : GameState × List GameEvent :=
  if (s.currentProblem.map (fun p => p.answer)) = some e.answerValue then
    handleCorrectAnswer now s
  else handleWrongAnswer s

/-! ## Typed-answer input layer (`submitAnswer` in the Alpine app)

```
submitAnswer() {
  const answer = parseInt(this.gameState.typedAnswer, 10);
  if (!isNaN(answer)) {
    EventBus.emit('answer:submit', { answer });
    ...
  }
}
```

`parseIntJS` models `parseInt(str, 10)`: skip leading whitespace, accept
an optional sign, read the longest prefix of decimal digits; `NaN`
(modelled as `none`) when that prefix is empty. -/

def digitsToNat (ds : List Char) : Nat :=
  ds.foldl (fun acc ch => acc * 10 + (ch.toNat - 48)) 0

def parseDigits (cs : List Char) : Option Int :=
  match cs.takeWhile (fun ch => ch.isDigit) with
  | [] => none
  | ds => some (digitsToNat ds : Int)

def parseIntJS (str : String) : Option Int :=
  match str.toList.dropWhile (fun ch => ch.isWhitespace) with
  | '-' :: rest => (parseDigits rest).map (fun n => -n)
  | '+' :: rest => parseDigits rest
  | rest => parseDigits rest

/-- The full typed-submission pipeline: the Alpine `submitAnswer` handler
(which emits `answer:submit` only when `parseInt` did not return `NaN`)
composed with the scene's `answer:submit` listener (guarded by type mode,
not game over, not paused) and `checkTypedAnswer`. -/
def typedSubmission (now : Int) (typed : String) (s : GameState) : GameState × List GameEvent :=
  match parseIntJS typed with
  | none => (s, [])
  | some answer =>
      if s.gameMode = GameMode.type ∧ s.isGameOver = false ∧ s.isPaused = false then
        checkTypedAnswer now answer s
      else (s, [])

/-! ## Session transition relation

One constructor per way `GameScene` mutates session state.  Correct and
wrong resolutions (bullet hit, typed submission, missed target) all run
from `update`/the guarded `answer:submit` listener, so they carry the
`¬ gameOver ∧ ¬ paused` guard present at each call site; the pause,
resume and problem-scheduling handlers run unguarded (the delayed
`generateNewProblem` re-checks `isGameOver` itself). -/

inductive Step : GameState → GameState → Prop where
  | newProblem (p : MathProblem) (now : Int) (s : GameState) :
      Step s (generateNewProblem p now s).1
  | correct (now : Int) (s : GameState)
      (h1 : s.isGameOver = false) (h2 : s.isPaused = false) :
      Step s (handleCorrectAnswer now s).1
  | wrong (s : GameState)
      (h1 : s.isGameOver = false) (h2 : s.isPaused = false) :
      Step s (handleWrongAnswer s).1
  | pause (s : GameState) : Step s (pauseSession s)
  | resume (s : GameState) : Step s (resumeSession s)

/-- States a session can be in after `init` and any sequence of
transitions. -/
inductive Reachable : GameState → Prop where
  | init (mode : GameMode) (d e : Int) : Reachable (initSession mode d e).1
  | step (s s' : GameState) : Reachable s → Step s s' → Reachable s'

/-- Inductive invariant of the session counters. -/
def SessionInv (s : GameState) : Prop :=
  0 ≤ s.score ∧ 0 ≤ s.xpEarned ∧ 0 ≤ s.streak ∧ 0 ≤ s.correctAnswers ∧
    s.streak ≤ s.bestStreak ∧ 0 ≤ s.playerLives ∧
    (s.isGameOver = false → 1 ≤ s.playerLives) ∧
    (s.isGameOver = true → s.playerLives = 0)

lemma handleCorrectAnswer_inv (now : Int) (s : GameState) (h : SessionInv s) :
    SessionInv (handleCorrectAnswer now s).1 := by
  obtain ⟨h1, h2, h3, h4, h5, h6, h7, h8⟩ := h
  unfold handleCorrectAnswer SessionInv streakBonus
  simp only
  refine ⟨by omega, ?_, by omega, by omega, ?_, by omega, ?_, ?_⟩
  · have : (0 : Int) ≤ min 20 ((s.streak + 1) * 2) := by omega
    split_ifs with ht <;> omega
  · split_ifs <;> omega
  · exact fun hh => h7 hh
  · exact fun hh => h8 hh

lemma handleWrongAnswer_inv (s : GameState) (hover : s.isGameOver = false)
    (h : SessionInv s) : SessionInv (handleWrongAnswer s).1 := by
  obtain ⟨h1, h2, h3, h4, h5, h6, h7, h8⟩ := h
  have hl := h7 hover
  unfold handleWrongAnswer SessionInv
  dsimp only
  split_ifs with hz <;> dsimp only
  · refine ⟨h1, h2, le_refl 0, h4, by omega, by omega, ?_, ?_⟩
    · intro hcontra
      simp at hcontra
    · intro _
      omega
  · refine ⟨h1, h2, le_refl 0, h4, by omega, by omega, ?_, ?_⟩
    · intro _
      omega
    · intro hcontra
      rw [hover] at hcontra
      simp at hcontra

/-- Every reachable session state satisfies the counter invariant. -/
lemma reachable_inv (s : GameState) (h : Reachable s) : SessionInv s := by
  induction h with
  | init mode d e =>
    unfold initSession SessionInv
    simp
  | step s s' _ hstep ih =>
    cases hstep with
    | newProblem p now s =>
      unfold generateNewProblem
      split
      · exact ih
      · obtain ⟨h1, h2, h3, h4, h5, h6, h7, h8⟩ := ih
        exact ⟨h1, h2, h3, h4, h5, h6, h7, h8⟩
    | correct now s h1 h2 => exact handleCorrectAnswer_inv now s ih
    | wrong s h1 h2 => exact handleWrongAnswer_inv s h1 ih
    | pause s =>
      obtain ⟨h1, h2, h3, h4, h5, h6, h7, h8⟩ := ih
      exact ⟨h1, h2, h3, h4, h5, h6, h7, h8⟩
    | resume s =>
      obtain ⟨h1, h2, h3, h4, h5, h6, h7, h8⟩ := ih
      exact ⟨h1, h2, h3, h4, h5, h6, h7, h8⟩

/-! ## Theorems -/

lemma getEvolutionStage_closed (xp : Int) :
    getEvolutionStage xp =
      if 20000 ≤ xp then 7
      else if 12000 ≤ xp then 6
      else if 7000 ≤ xp then 5
      else if 3500 ≤ xp then 4
      else if 1500 ≤ xp then 3
      else if 500 ≤ xp then 2
      else 1 := by
  unfold getEvolutionStage EVOLUTION_STAGES
  simp only [stageLoop]
  split_ifs <;> omega

lemma getEvolutionByStage_thr :
    (getEvolutionByStage 1).xpRequired = 0 ∧ (getEvolutionByStage 2).xpRequired = 500 ∧
    (getEvolutionByStage 3).xpRequired = 1500 ∧ (getEvolutionByStage 4).xpRequired = 3500 ∧
    (getEvolutionByStage 5).xpRequired = 7000 ∧ (getEvolutionByStage 6).xpRequired = 12000 ∧
    (getEvolutionByStage 7).xpRequired = 20000 := by
  refine ⟨rfl, rfl, rfl, rfl, rfl, rfl, rfl⟩

set_option maxHeartbeats 1000000 in
/-- C6: for non-negative xp, `getEvolutionStage` returns the highest stage
id whose threshold is ≤ xp; it is monotone in xp; the four pinned values
hold; `getXPToNextEvolution` is `max 0 (nextThreshold − xp)` and is `0`
at the final stage. -/
theorem evolution_stage_sound :
    (∀ xp : Int, 0 ≤ xp →
      (getEvolutionByStage (getEvolutionStage xp)).xpRequired ≤ xp ∧
      ∀ i : Nat, 1 ≤ i → i ≤ 7 → (getEvolutionByStage i).xpRequired ≤ xp →
        i ≤ getEvolutionStage xp) ∧
    (∀ xp xp' : Int, xp ≤ xp' → getEvolutionStage xp ≤ getEvolutionStage xp') ∧
    getEvolutionStage 0 = 1 ∧ getEvolutionStage 500 = 2 ∧
    getEvolutionStage 19999 = 6 ∧ getEvolutionStage 20000 = 7 ∧
    (∀ (xp : Int) (stage : Nat) (next : EvolutionStage),
      getNextEvolution stage = some next →
      getXPToNextEvolution xp stage = max 0 (next.xpRequired - xp)) ∧
    (∀ xp : Int, getXPToNextEvolution xp 7 = 0) := by
  obtain ⟨t1, t2, t3, t4, t5, t6, t7⟩ := getEvolutionByStage_thr
  refine ⟨?_, ?_, by decide, by decide, by decide, by decide, ?_, ?_⟩
  · intro xp hxp
    constructor
    · rw [getEvolutionStage_closed]
      split_ifs
      · rw [t7]; omega
      · rw [t6]; omega
      · rw [t5]; omega
      · rw [t4]; omega
      · rw [t3]; omega
      · rw [t2]; omega
      · rw [t1]; omega
    · intro i hi1 hi7 hthr
      interval_cases i
      · rw [t1] at hthr
        rw [getEvolutionStage_closed]
        split_ifs <;> omega
      · rw [t2] at hthr
        rw [getEvolutionStage_closed]
        split_ifs <;> omega
      · rw [t3] at hthr
        rw [getEvolutionStage_closed]
        split_ifs <;> omega
      · rw [t4] at hthr
        rw [getEvolutionStage_closed]
        split_ifs <;> omega
      · rw [t5] at hthr
        rw [getEvolutionStage_closed]
        split_ifs <;> omega
      · rw [t6] at hthr
        rw [getEvolutionStage_closed]
        split_ifs <;> omega
      · rw [t7] at hthr
        rw [getEvolutionStage_closed]
        split_ifs <;> omega
  · intro xp xp' hle
    rw [getEvolutionStage_closed, getEvolutionStage_closed]
    split_ifs <;> omega
  · intro xp stage next hnext
    unfold getXPToNextEvolution
    rw [hnext]
  · intro xp
    unfold getXPToNextEvolution getNextEvolution EVOLUTION_STAGES
    simp [List.find?]

/-- Witness for C6 at `xp = 600`. -/
theorem evolution_stage_sound_witness :
    (0 : Int) ≤ 600 ∧ (getEvolutionByStage (getEvolutionStage 600)).xpRequired ≤ 600 :=
  ⟨by decide, ((evolution_stage_sound.1 600 (by decide)).1)⟩

/-- C7 counterexample: `getEvolutionProgress` has no lower clamp, so at
`xp = 0` and `currentStage = 2` (threshold 500) it returns −50, which is
not a percentage in [0, 100]. -/
theorem evolution_progress_below_zero_cx : getEvolutionProgress 0 2 < 0 := by
  have h : getEvolutionProgress 0 2 = -50 := by
    norm_num [getEvolutionProgress, getNextEvolution, getEvolutionByStage, EVOLUTION_STAGES,
      List.find?]
  rw [h]
  norm_num

lemma progress_bounds (xp : Int) (a b : Rat) (ha : a ≤ (xp : Rat)) (hb : 0 < b - a) :
    0 ≤ min 100 (((xp : Rat) - a) / (b - a) * 100) ∧
      min 100 (((xp : Rat) - a) / (b - a) * 100) ≤ 100 := by
  refine ⟨le_min (by norm_num) ?_, min_le_left _ _⟩
  apply mul_nonneg (div_nonneg (by linarith) (le_of_lt hb)) (by norm_num)

/-- C7 amended: for stages 1–7 and any xp at or above the current stage's
threshold, `getEvolutionProgress` lies in [0, 100], and at the final stage
it is 100; below the current stage's threshold it can be negative (see the
counterexample), because the source clamps only from above
(`Math.min(100, …)`). -/
theorem evolution_progress_range (xp : Int) (stage : Nat)
    (h1 : 1 ≤ stage) (h7 : stage ≤ 7)
    (hxp : (getEvolutionByStage stage).xpRequired ≤ xp) :
    0 ≤ getEvolutionProgress xp stage ∧ getEvolutionProgress xp stage ≤ 100 ∧
      (stage = 7 → getEvolutionProgress xp stage = 100) := by
  interval_cases stage
  · have hxp' : (0 : Int) ≤ xp := hxp
    have hp : getEvolutionProgress xp 1 = min 100 (((xp : Rat) - 0) / (500 - 0) * 100) := by
      norm_num [getEvolutionProgress, getNextEvolution, getEvolutionByStage, EVOLUTION_STAGES,
        List.find?]
    rw [hp]
    have hb := progress_bounds xp 0 500 (by exact_mod_cast hxp') (by norm_num)
    exact ⟨hb.1, hb.2, fun h => absurd h (by decide)⟩
  · have hxp' : (500 : Int) ≤ xp := hxp
    have hp : getEvolutionProgress xp 2 = min 100 (((xp : Rat) - 500) / (1500 - 500) * 100) := by
      norm_num [getEvolutionProgress, getNextEvolution, getEvolutionByStage, EVOLUTION_STAGES,
        List.find?]
    rw [hp]
    have hb := progress_bounds xp 500 1500 (by exact_mod_cast hxp') (by norm_num)
    exact ⟨hb.1, hb.2, fun h => absurd h (by decide)⟩
  · have hxp' : (1500 : Int) ≤ xp := hxp
    have hp : getEvolutionProgress xp 3 = min 100 (((xp : Rat) - 1500) / (3500 - 1500) * 100) := by
      norm_num [getEvolutionProgress, getNextEvolution, getEvolutionByStage, EVOLUTION_STAGES,
        List.find?]
    rw [hp]
    have hb := progress_bounds xp 1500 3500 (by exact_mod_cast hxp') (by norm_num)
    exact ⟨hb.1, hb.2, fun h => absurd h (by decide)⟩
  · have hxp' : (3500 : Int) ≤ xp := hxp
    have hp : getEvolutionProgress xp 4 = min 100 (((xp : Rat) - 3500) / (7000 - 3500) * 100) := by
      norm_num [getEvolutionProgress, getNextEvolution, getEvolutionByStage, EVOLUTION_STAGES,
        List.find?]
    rw [hp]
    have hb := progress_bounds xp 3500 7000 (by exact_mod_cast hxp') (by norm_num)
    exact ⟨hb.1, hb.2, fun h => absurd h (by decide)⟩
  · have hxp' : (7000 : Int) ≤ xp := hxp
    have hp : getEvolutionProgress xp 5 = min 100 (((xp : Rat) - 7000) / (12000 - 7000) * 100) := by
      norm_num [getEvolutionProgress, getNextEvolution, getEvolutionByStage, EVOLUTION_STAGES,
        List.find?]
    rw [hp]
    have hb := progress_bounds xp 7000 12000 (by exact_mod_cast hxp') (by norm_num)
    exact ⟨hb.1, hb.2, fun h => absurd h (by decide)⟩
  · have hxp' : (12000 : Int) ≤ xp := hxp
    have hp : getEvolutionProgress xp 6 =
        min 100 (((xp : Rat) - 12000) / (20000 - 12000) * 100) := by
      norm_num [getEvolutionProgress, getNextEvolution, getEvolutionByStage, EVOLUTION_STAGES,
        List.find?]
    rw [hp]
    have hb := progress_bounds xp 12000 20000 (by exact_mod_cast hxp') (by norm_num)
    exact ⟨hb.1, hb.2, fun h => absurd h (by decide)⟩
  · have hp : getEvolutionProgress xp 7 = 100 := by
      norm_num [getEvolutionProgress, getNextEvolution, getEvolutionByStage, EVOLUTION_STAGES,
        List.find?]
    rw [hp]
    norm_num

/-- Witness for the amended C7 at `xp = 600`, `stage = 2`. -/
theorem evolution_progress_range_witness :
    (1 ≤ 2 ∧ 2 ≤ 7 ∧ (getEvolutionByStage 2).xpRequired ≤ 600) ∧
      0 ≤ getEvolutionProgress 600 2 ∧ getEvolutionProgress 600 2 ≤ 100 :=
  ⟨⟨by decide, by decide, by decide⟩,
   (evolution_progress_range 600 2 (by decide) (by decide) (by decide)).1,
   (evolution_progress_range 600 2 (by decide) (by decide) (by decide)).2.1⟩

/-- C1: for any correct answer ≥ 1, any requested count in 1–5, and any
sequence of random draws, `generateWrongAnswers` returns exactly `count`
pairwise-distinct, strictly positive integers, none equal to the correct
answer.  Termination of the deterministic fallback is established once
and for all by the well-founded measure of `fallbackLoop`; the
exact-cardinality claim holds because the fallback's only exit is the
`size < count` test. -/
theorem generateWrongAnswers_sound (c : Int) (count : Nat) (rng : Nat → Int × Bool)
    (hc : 1 ≤ c) (hcount : 1 ≤ count ∧ count ≤ 5) :
    (generateWrongAnswers c count rng).length = count ∧
    (generateWrongAnswers c count rng).Nodup ∧
    ∀ w ∈ generateWrongAnswers c count rng, 0 < w ∧ w ≠ c := by
  have hinv0 : WrongInv c ([] : List Int) := ⟨List.nodup_nil, by simp⟩
  have hphase := randomPhase_inv c count rng 0 [] hinv0
  have hlen := randomPhase_length c count rng 0 [] (by simp)
  have hfull := fallbackLoop_inv c count 0 _ hphase
  have hflen := fallbackLoop_length c count 0 _ hlen
  exact ⟨hflen, hfull.1, hfull.2⟩

/-- Witness for C1 at `correctAnswer = 1`, `count = 3` (the pathological
fallback-forcing case) with a degenerate random oracle. -/
theorem generateWrongAnswers_sound_witness :
    ((1 : Int) ≤ 1 ∧ 1 ≤ 3 ∧ 3 ≤ 5) ∧
      (generateWrongAnswers 1 3 (fun n => (2, true))).length = 3 :=
  ⟨⟨le_refl 1, by omega, by omega⟩,
   (generateWrongAnswers_sound 1 3 (fun n => (2, true)) (le_refl 1) ⟨by omega, by omega⟩).1⟩

/-- Soundness of one generated problem against the per-operation contract
of the spec: exact answer, operands within the ranges the operation draws
from, non-negative subtraction, remainder-free division. -/
def ProblemSound (cfg : DifficultyConfig) (p : MathProblem) : Prop :=
  (p.operation = MathOperation.addition →
    p.answer = p.operand1 + p.operand2 ∧
    1 ≤ p.operand1 ∧ p.operand1 ≤ cfg.maxNumber ∧
    1 ≤ p.operand2 ∧ p.operand2 ≤ cfg.maxNumber) ∧
  (p.operation = MathOperation.subtraction →
    p.answer = p.operand1 - p.operand2 ∧ 0 ≤ p.answer ∧
    1 ≤ p.operand1 ∧ p.operand1 ≤ cfg.maxNumber ∧
    1 ≤ p.operand2 ∧ p.operand2 ≤ cfg.maxNumber) ∧
  (p.operation = MathOperation.multiplication →
    p.answer = p.operand1 * p.operand2 ∧
    1 ≤ p.operand1 ∧ p.operand1 ≤ cfg.maxMultiplier ∧
    1 ≤ p.operand2 ∧ p.operand2 ≤ cfg.maxMultiplier) ∧
  (p.operation = MathOperation.division →
    p.operand1 = p.operand2 * p.answer ∧
    1 ≤ p.operand2 ∧ p.operand2 ≤ cfg.maxMultiplier ∧
    1 ≤ p.answer ∧ p.answer ≤ cfg.maxMultiplier)

/-- C2: for every difficulty level 1–5, every operation allowed at that
level, and every pair of in-range random draws, the generated problem
carries that operation and satisfies the arithmetic contract: the answer
is exact, subtraction is non-negative by operand ordering, division
satisfies `operand1 = operand2 × answer` by construction, and all
operands lie within the magnitude bounds the level configures for that
operation. -/
theorem generateWith_sound (level : Int) (op : MathOperation) (r1 r2 : Int)
    (hlevel : 1 ≤ level ∧ level ≤ 5)
    (hop : op ∈ (getConfig level).operations)
    (hr1 : 1 ≤ r1 ∧ r1 ≤ drawBound (getConfig level) op)
    (hr2 : 1 ≤ r2 ∧ r2 ≤ drawBound (getConfig level) op) :
    (generateWith (getConfig level) op r1 r2).operation = op ∧
      ProblemSound (getConfig level) (generateWith (getConfig level) op r1 r2) := by
  obtain ⟨hr1a, hr1b⟩ := hr1
  obtain ⟨hr2a, hr2b⟩ := hr2
  cases op with
  | addition =>
    unfold generateWith generateAddition drawBound at *
    refine ⟨rfl, ?_, ?_, ?_, ?_⟩ <;> intro h <;> simp_all
  | subtraction =>
    unfold generateWith generateSubtraction drawBound at *
    refine ⟨rfl, ?_, ?_, ?_, ?_⟩ <;> intro h <;> simp_all <;> split_ifs <;>
      simp_all <;> omega
  | multiplication =>
    unfold generateWith generateMultiplication drawBound at *
    refine ⟨rfl, ?_, ?_, ?_, ?_⟩ <;> intro h <;> simp_all
  | division =>
    unfold generateWith generateDivision drawBound at *
    refine ⟨rfl, ?_, ?_, ?_, ?_⟩ <;> intro h <;> simp_all

/-- Witness for C2: level 4, division, draws 10 and 7. -/
theorem generateWith_sound_witness :
    ((1 : Int) ≤ 4 ∧ (4 : Int) ≤ 5) ∧
      MathOperation.division ∈ (getConfig 4).operations ∧
      ((1 : Int) ≤ 10 ∧ 10 ≤ drawBound (getConfig 4) MathOperation.division) ∧
      ((1 : Int) ≤ 7 ∧ 7 ≤ drawBound (getConfig 4) MathOperation.division) ∧
      (generateWith (getConfig 4) MathOperation.division 10 7).operation =
        MathOperation.division :=
  ⟨⟨by decide, by decide⟩, by decide, ⟨by decide, by decide⟩, ⟨by decide, by decide⟩,
   (generateWith_sound 4 MathOperation.division 10 7 ⟨by decide, by decide⟩ (by decide)
      ⟨by decide, by decide⟩ ⟨by decide, by decide⟩).1⟩

/-- A concrete problem used in the counterexample scenarios. -/
def demoProblem : MathProblem :=
  { operand1 := 3
    operand2 := 4
    operation := MathOperation.addition
    answer := 7
    equation := "3 + 4 = ?" }

/-- C3 counterexample: in a fresh type-mode session, submitting the first
problem's correct answer within the 3000 ms window publishes
`answer:correct` with xp 17, not 15: the source increments `streak` to 1
before computing `streakBonus = min(20, streak*2) = 2`, so the first
correct answer already carries a streak bonus of 2. -/
theorem first_correct_xp_cx :
    (checkTypedAnswer 1000 7
        (generateNewProblem demoProblem 0 (initSession GameMode.type 1 1).1).1).2 =
      [GameEvent.answerCorrect 17 1, GameEvent.scoreUpdate 110 1] ∧
    (17 : Int) ≠ 15 := by
  constructor
  · rfl
  · decide

/-- C3 amended: in a fresh session of any mode, a correct resolution of
the first problem within the 3000 ms window publishes `answer:correct`
with `xpDelta = 17` (10 base + 5 time bonus + 2 streak bonus, the streak
having been incremented to 1 before the bonus is read) and
`score:update` with score 110. -/
theorem first_correct_xp (mode : GameMode) (d e : Int) (p : MathProblem) (t0 now : Int)
    (hwindow : now - t0 < 3000) :
    (handleCorrectAnswer now
        (generateNewProblem p t0 (initSession mode d e).1).1).2 =
      [GameEvent.answerCorrect 17 1, GameEvent.scoreUpdate 110 1] := by
  unfold handleCorrectAnswer generateNewProblem initSession streakBonus
  simp only [Bool.false_eq_true, if_false]
  rw [if_pos hwindow]
  norm_num [min_def]

/-- Witness for the amended C3: `demoProblem` issued at `t0 = 0`, answered
at `now = 1000`. -/
theorem first_correct_xp_witness :
    (1000 - 0 : Int) < 3000 ∧
      (handleCorrectAnswer 1000
          (generateNewProblem demoProblem 0 (initSession GameMode.type 1 1).1).1).2 =
        [GameEvent.answerCorrect 17 1, GameEvent.scoreUpdate 110 1] :=
  ⟨by decide, first_correct_xp GameMode.type 1 1 demoProblem 0 1000 (by decide)⟩

/-- C4: `init` zeroes every counter and sets 5 lives; a wrong resolution
decrements lives by exactly one and resets the streak; from any reachable
non-ended state, the wrong resolution ends the session exactly when the
decremented lives reach 0, and at that point it publishes exactly the
lives/incorrect/score events followed by one terminal summary
`{score, correctCount, xpEarned, bestStreak}`. -/
theorem session_lifecycle_sound (mode : GameMode) (d e : Int) (s : GameState)
    (hr : Reachable s) (hover : s.isGameOver = false) :
    ((initSession mode d e).1.score = 0 ∧ (initSession mode d e).1.streak = 0 ∧
      (initSession mode d e).1.bestStreak = 0 ∧ (initSession mode d e).1.correctAnswers = 0 ∧
      (initSession mode d e).1.xpEarned = 0 ∧ (initSession mode d e).1.playerLives = 5) ∧
    ((handleWrongAnswer s).1.playerLives = s.playerLives - 1 ∧
      (handleWrongAnswer s).1.streak = 0) ∧
    ((handleWrongAnswer s).1.isGameOver = true ↔ (handleWrongAnswer s).1.playerLives = 0) ∧
    ((handleWrongAnswer s).1.isGameOver = true →
      (handleWrongAnswer s).2 =
        [GameEvent.playerLivesUpdate 0, GameEvent.answerWrong, GameEvent.scoreUpdate s.score 0,
         GameEvent.gameOverSummary s.score s.correctAnswers s.xpEarned s.bestStreak]) := by
  have hinv := reachable_inv s hr
  have hlives : 1 ≤ s.playerLives := hinv.2.2.2.2.2.2.1 hover
  refine ⟨⟨rfl, rfl, rfl, rfl, rfl, rfl⟩, ?_, ?_, ?_⟩ <;>
    unfold handleWrongAnswer <;> dsimp only <;> split_ifs with hz <;> dsimp only
  · exact ⟨rfl, rfl⟩
  · exact ⟨rfl, rfl⟩
  · constructor
    · intro _
      omega
    · intro _
      rfl
  · constructor
    · intro hcontra
      exact absurd hcontra (by rw [hover]; decide)
    · intro hcontra
      omega
  · intro _
    have hzero : s.playerLives - 1 = 0 := by omega
    rw [hzero]
    rfl
  · intro hcontra
    rw [hover] at hcontra
    exact absurd hcontra (by decide)

/-- Witness for C4 at the freshly initialised shoot-mode session. -/
theorem session_lifecycle_sound_witness :
    (initSession GameMode.shoot 1 1).1.isGameOver = false ∧
      (handleWrongAnswer (initSession GameMode.shoot 1 1).1).1.playerLives =
        (initSession GameMode.shoot 1 1).1.playerLives - 1 :=
  ⟨rfl,
   (session_lifecycle_sound GameMode.shoot 1 1 (initSession GameMode.shoot 1 1).1
      (Reachable.init GameMode.shoot 1 1) rfl).2.1.1⟩

/-- C5 counterexample: in a fresh type-mode session with its problem
issued, the single type-mode target (spawned with `isCorrect = true`)
falling out of play bounds costs a life — lives drop from 5 to 4 with no
answer having been submitted, so type mode does have a timeout penalty. -/
theorem type_timeout_penalty_cx :
    (resolveMissedEnemy { answerValue := 0, isCorrect := true }
        (generateNewProblem demoProblem 0 (initSession GameMode.type 1 1).1).1).1.playerLives =
      4 ∧ (4 : Int) ≠ 5 := by
  constructor
  · rfl
  · decide

/-- C5 amended: in type mode a life is lost not only on a numerically
wrong submission but also whenever a target leaves the play bounds: the
missed-target branch of `update` runs `handleWrongAnswer` for every
missed enemy in type mode (the guard is `enemy.isCorrect || mode = type`),
decrementing `livesRemaining` by one and resetting the streak. -/
theorem type_mode_timeout_penalty (e : EnemyData) (s : GameState)
    (hmode : s.gameMode = GameMode.type) :
    resolveMissedEnemy e s = handleWrongAnswer s ∧
    (resolveMissedEnemy e s).1.playerLives = s.playerLives - 1 ∧
    (resolveMissedEnemy e s).1.streak = 0 := by
  have hres : resolveMissedEnemy e s = handleWrongAnswer s := by
    unfold resolveMissedEnemy
    rw [if_pos (Or.inr hmode)]
  refine ⟨hres, ?_, ?_⟩ <;> rw [hres] <;>
    unfold handleWrongAnswer <;> dsimp only <;> split_ifs <;> rfl

/-- Witness for the amended C5 at a fresh type-mode session. -/
theorem type_mode_timeout_penalty_witness :
    (initSession GameMode.type 1 1).1.gameMode = GameMode.type ∧
      (resolveMissedEnemy { answerValue := 0, isCorrect := false }
          (initSession GameMode.type 1 1).1).1.playerLives =
        (initSession GameMode.type 1 1).1.playerLives - 1 :=
  ⟨rfl,
   (type_mode_timeout_penalty { answerValue := 0, isCorrect := false }
      (initSession GameMode.type 1 1).1 rfl).2.1⟩

/-- C8 counterexample: the unparsable typed submission `"abc"` is dropped
at the input layer — `parseInt` yields `NaN`, no `answer:submit` event is
emitted, no incorrectness event is published, and the session state
(including lives and streak) is completely unchanged, contrary to the
claim that it is treated like a wrong numeric answer. -/
theorem unparsable_submission_dropped_cx :
    (typedSubmission 0 "abc" (initSession GameMode.type 1 1).1).2 = [] ∧
    (typedSubmission 0 "abc" (initSession GameMode.type 1 1).1).1 =
      (initSession GameMode.type 1 1).1 ∧
    (handleWrongAnswer (initSession GameMode.type 1 1).1).2 ≠ [] := by
  refine ⟨rfl, rfl, ?_⟩
  decide

/-- C8 amended: a typed submission whose text `parseInt` cannot parse
(`NaN`) is silently discarded by the Alpine `submitAnswer` handler: no
`answer:submit` event reaches the scene, so no incorrectness event is
published and the session state is left untouched.  Parsable text is
compared numerically as usual. -/
theorem unparsable_submission_no_effect (now : Int) (typed : String) (s : GameState)
    (h : parseIntJS typed = none) :
    typedSubmission now typed s = (s, []) := by
  unfold typedSubmission
  rw [h]

/-- Witness for the amended C8 on the input `"abc"`. -/
theorem unparsable_submission_no_effect_witness :
    parseIntJS "abc" = none ∧
      typedSubmission 0 "abc" (initSession GameMode.type 1 1).1 =
        ((initSession GameMode.type 1 1).1, []) :=
  ⟨by decide,
   unparsable_submission_no_effect 0 "abc" (initSession GameMode.type 1 1).1 (by decide)⟩

/-- C9: pausing and immediately resuming a reachable, non-ended,
non-paused session is the identity on the session state — in particular
`score`, `streak`, `livesRemaining` and `currentProblem` are exactly as
before the pause. -/
theorem pause_resume_idempotent (s : GameState) (hr : Reachable s)
    (hover : s.isGameOver = false) (hp : s.isPaused = false) :
    resumeSession (pauseSession s) = s ∧
    (resumeSession (pauseSession s)).score = s.score ∧
    (resumeSession (pauseSession s)).streak = s.streak ∧
    (resumeSession (pauseSession s)).playerLives = s.playerLives ∧
    (resumeSession (pauseSession s)).currentProblem = s.currentProblem := by
  have hid : resumeSession (pauseSession s) = s := by
    unfold resumeSession pauseSession
    cases s
    simp only at hp
    rw [hp]
  exact ⟨hid, by rw [hid], by rw [hid], by rw [hid], by rw [hid]⟩

/-- Witness for C9 at the freshly initialised shoot-mode session. -/
theorem pause_resume_idempotent_witness :
    (initSession GameMode.shoot 1 1).1.isGameOver = false ∧
      (initSession GameMode.shoot 1 1).1.isPaused = false ∧
      resumeSession (pauseSession (initSession GameMode.shoot 1 1).1) =
        (initSession GameMode.shoot 1 1).1 :=
  ⟨rfl, rfl,
   (pause_resume_idempotent (initSession GameMode.shoot 1 1).1
      (Reachable.init GameMode.shoot 1 1) rfl rfl).1⟩

/-- C10: on every reachable state score and xpEarned are non-negative
(integers by the model's typing); every transition from a reachable state
leaves them non-decreasing; a wrong resolution changes only streak and
lives, leaving score, xpEarned, correctCount, bestStreak and the current
problem untouched; and the streak bonus never exceeds 20. -/
theorem score_xp_monotone_frame :
    (∀ s : GameState, Reachable s → 0 ≤ s.score ∧ 0 ≤ s.xpEarned) ∧
    (∀ s s' : GameState, Reachable s → Step s s' →
      s.score ≤ s'.score ∧ s.xpEarned ≤ s'.xpEarned) ∧
    (∀ s : GameState,
      (handleWrongAnswer s).1.score = s.score ∧
      (handleWrongAnswer s).1.xpEarned = s.xpEarned ∧
      (handleWrongAnswer s).1.correctAnswers = s.correctAnswers ∧
      (handleWrongAnswer s).1.bestStreak = s.bestStreak ∧
      (handleWrongAnswer s).1.currentProblem = s.currentProblem) ∧
    (∀ streak : Int, streakBonus streak ≤ 20) := by
  refine ⟨?_, ?_, ?_, ?_⟩
  · intro s hr
    have hinv := reachable_inv s hr
    exact ⟨hinv.1, hinv.2.1⟩
  · intro s s' hr hstep
    have hinv := reachable_inv s hr
    have hstreak : 0 ≤ s.streak := hinv.2.2.1
    cases hstep with
    | newProblem p now s =>
      unfold generateNewProblem
      split <;> dsimp only <;> omega
    | correct now s h1 h2 =>
      unfold handleCorrectAnswer streakBonus
      dsimp only
      constructor
      · have : (0 : Int) ≤ min 20 ((s.streak + 1) * 2) := by omega
        omega
      · split_ifs <;> omega
    | wrong s h1 h2 =>
      unfold handleWrongAnswer
      dsimp only
      split_ifs <;> dsimp only <;> omega
    | pause s => exact ⟨le_refl _, le_refl _⟩
    | resume s => exact ⟨le_refl _, le_refl _⟩
  · intro s
    unfold handleWrongAnswer
    dsimp only
    split_ifs <;> exact ⟨rfl, rfl, rfl, rfl, rfl⟩
  · intro streak
    unfold streakBonus
    omega

/-- Witness for C10 at the freshly initialised shoot-mode session and a
pause step. -/
theorem score_xp_monotone_frame_witness :
    0 ≤ (initSession GameMode.shoot 1 1).1.score ∧
      0 ≤ (initSession GameMode.shoot 1 1).1.xpEarned :=
  score_xp_monotone_frame.1 (initSession GameMode.shoot 1 1).1
    (Reachable.init GameMode.shoot 1 1)

end SpaceMath
